import Mathlib

/-!
# Balls-simulator: the simulation engine `domain::Model`

A shallow embedding of `src/source/domain/model.cpp`.  The private state
`Model::Impl` becomes a record, every member function becomes a function on
that record, and the `std::unordered_map` registry becomes an association
list (its order stands for the unspecified iteration order of the hash map).

The mutex is left out: every public operation is taken as one atomic step,
and one pass of the background thread through the body of the `simulate`
loop is one step as well.  Where `startStopSimulation` joins the thread, the
pass that the thread may still have to run before it leaves the loop is part
of the step.
-/

namespace utils

/-- Modelled from the spec: `utils::Vector2f` (its header is not part of the
sources at hand) is a 2D vector of floats; the coordinates are idealised as
rationals.  `Vector2f()` is the zero vector.  The model code stores and copies
vectors and compares one computed squared distance with a constant, so what
is proved about it below does not rest on how the arithmetic rounds. -/
structure Vector2f where
  x : ℚ
  y : ℚ
deriving DecidableEq

namespace Vector2f

/-- The default-constructed vector `Vector2f()`. -/
def zero : Vector2f := ⟨0, 0⟩

/-- The `operator-` of two vectors. -/
def sub (a b : Vector2f) : Vector2f := ⟨a.x - b.x, a.y - b.y⟩

/-- The `operator+` of two vectors. -/
def add (a b : Vector2f) : Vector2f := ⟨a.x + b.x, a.y + b.y⟩

/-- The product of a vector with a scalar. -/
def scale (a : Vector2f) (c : ℚ) : Vector2f := ⟨a.x * c, a.y * c⟩

/-- The squared Euclidean length, `normSquare()`. -/
def normSquare (a : Vector2f) : ℚ := a.x * a.x + a.y * a.y

end Vector2f

/-- Modelled from the spec: `utils::Id` (its header is not part of the sources
at hand) is an opaque token convertible to `std::size_t`, with one reserved
value `NULLID` that means "no entity". -/
structure Id where
  toStdSizeT : Nat
deriving DecidableEq

namespace Id

/-- The reserved identifier `utils::Id::NULLID`. -/
def NULLID : Id := ⟨0⟩

/-- The test `isNull()`. -/
def isNull (i : Id) : Bool := decide (i = NULLID)

end Id

end utils

namespace domain

open utils

/-- Modelled from the spec: `domain::Ball` (`domain/ball.h` is not part of the
sources at hand) has an immutable id, a position, a velocity and a pinned
flag. -/
structure Ball where
  id : Id
  position : Vector2f
  speed : Vector2f
  isFixed : Bool
deriving DecidableEq

namespace Ball

/-- Modelled from the spec: the constructor `Ball(position)` makes an entity
with the given position, zero velocity, not pinned; `id` is the identifier
the constructor assigns. -/
def create (id : Id) (position : Vector2f) : Ball := ⟨id, position, Vector2f.zero, false⟩

/-- The mutator `setPosition`. -/
def setPosition (b : Ball) (p : Vector2f) : Ball := { b with position := p }

/-- The mutator `setSpeed`. -/
def setSpeed (b : Ball) (v : Vector2f) : Ball := { b with speed := v }

/-- The mutator `setFixed`. -/
def setFixed (b : Ball) (f : Bool) : Ball := { b with isFixed := f }

/-- Modelled from the spec: `applyForce` is the velocity update
`velocity += force * Δt`, skipped entirely for pinned entities. -/
def applyForce (b : Ball) (force : Vector2f) (deltaT : ℚ) : Ball :=
  if b.isFixed then b else { b with speed := b.speed.add (force.scale deltaT) }

/-- Modelled from the spec: `makeStep` is the position update
`position += velocity * Δt`, skipped for pinned entities. -/
def makeStep (b : Ball) (deltaT : ℚ) : Ball :=
  if b.isFixed then b else { b with position := b.position.add (b.speed.scale deltaT) }

end Ball

/-- The registry type `std::unordered_map<std::size_t, BallPtr>` as an
association list; the list order is the iteration order. -/
abbrev Registry := List (Nat × Ball)

/-- The two ways an operation of the model can go wrong. -/
inductive Failure where
  /-- The exception `std::out_of_range` thrown by `unordered_map::at`. -/
  | outOfRange
  /-- The call `erase(end())`, which `unordered_map::erase` leaves undefined. -/
  | eraseEnd
deriving DecidableEq

namespace Registry

/-- The keys in iteration order. -/
def keys (r : Registry) : List Nat := r.map Prod.fst

/-- The lookup `find(key)`; `none` stands for `end()`. -/
def find (r : Registry) (key : Nat) : Option Ball :=
  match r with
  | [] => none
  | e :: rest => if e.1 = key then some e.2 else find rest key

/-- The insertion `emplace(key, ball)`: nothing happens when the key is taken. -/
def emplace (r : Registry) (key : Nat) (ball : Ball) : Registry :=
  if key ∈ keys r then r else r ++ [(key, ball)]

/-- The removal `erase(it)` for the iterator that `find(key)` returned: the
first (and in a map the only) element stored under `key` goes. -/
def erase : Registry → Nat → Registry
  | [], _ => []
  | e :: rest, key => if e.1 = key then rest else e :: erase rest key

/-- The statement `erase(find(key))`: defined only when `find` does not
return `end()`. -/
def eraseFound (r : Registry) (key : Nat) : Except Failure Registry :=
  if key ∈ keys r then .ok (erase r key) else .error .eraseEnd

/-- The effect of a mutator `f` called through the shared pointer stored
under `key`. -/
def update (r : Registry) (key : Nat) (f : Ball → Ball) : Registry :=
  r.map (fun e => if e.1 = key then (e.1, f e.2) else e)

/-- A mutation `at(key)->f(...)`; `at` throws when the key is absent. -/
def modifyAt (r : Registry) (key : Nat) (f : Ball → Ball) : Except Failure Registry :=
  if key ∈ keys r then .ok (update r key f) else .error .outOfRange

end Registry

namespace Model

/-- The private state `Model::Impl` (without the mutex and the thread).
`nextId` is modelled from the spec: the constructor of `Ball` assigns an id
that is unique across all live and pending entities, here the next value of
a counter. -/
structure Impl where
  _idToBallMap : Registry
  _idBallsToDelete : List Id
  _ballsToCreate : List Ball
  _simulationIsActive : Bool
  _deltaT : ℚ
  nextId : Nat

namespace Impl

/-- The drain `Model::Impl::createBalls`. -/
def createBalls (d : Impl) : Impl :=
  { d with
    _idToBallMap :=
      d._ballsToCreate.foldl (fun r ball => r.emplace ball.id.toStdSizeT ball) d._idToBallMap
    _ballsToCreate := [] }

/-- The loop of `Model::Impl::deleteBalls`: one `erase(find(id))` per queued id. -/
def eraseQueued : Registry → List Id → Except Failure Registry
  | r, [] => .ok r
  | r, ballId :: rest =>
    match r.eraseFound ballId.toStdSizeT with
    | .ok r1 => eraseQueued r1 rest
    | .error e => .error e

/-- The drain `Model::Impl::deleteBalls`. -/
def deleteBalls (d : Impl) : Except Failure Impl :=
  match eraseQueued d._idToBallMap d._idBallsToDelete with
  | .ok r => .ok { d with _idToBallMap := r, _idBallsToDelete := [] }
  | .error e => .error e

end Impl

/-- The operation `Model::setBallFixed`. -/
def setBallFixed (d : Impl) (ballId : Id) (fixed : Bool) : Except Failure Unit × Impl :=
  match (if !fixed then
           d._idToBallMap.modifyAt ballId.toStdSizeT (fun b => b.setSpeed Vector2f.zero)
         else .ok d._idToBallMap) with
  | .error e => (.error e, d)
  | .ok r1 =>
    match r1.modifyAt ballId.toStdSizeT (fun b => b.setFixed fixed) with
    | .error e => (.error e, { d with _idToBallMap := r1 })
    | .ok r2 => (.ok (), { d with _idToBallMap := r2 })

/-- The operation `Model::addBall`; the new ball takes its id from the
counter. -/
def addBall (d : Impl) (position : Vector2f) : Id × Impl :=
  let ball : Ball := Ball.create ⟨d.nextId⟩ position
  let d1 : Impl :=
    { d with _ballsToCreate := d._ballsToCreate ++ [ball], nextId := d.nextId + 1 }
  (ball.id, if !d1._simulationIsActive then d1.createBalls else d1)

/-- The operation `Model::removeBallLater(const utils::Id&)`. -/
def removeBallLater (d : Impl) (ballId : Id) : Except Failure Impl :=
  if ballId.isNull then .ok d
  else
    let d1 : Impl := { d with _idBallsToDelete := d._idBallsToDelete ++ [ballId] }
    if !d1._simulationIsActive then d1.deleteBalls else .ok d1

/-- The operation `Model::removeBall(const utils::Id&)`. -/
def removeBall (d : Impl) (ballId : Id) : Except Failure Impl :=
  if ballId.isNull then .ok d else removeBallLater d ballId

/-- The operation `Model::moveBall`. -/
def moveBall (d : Impl) (ballId : Id) (position : Vector2f) : Except Failure Unit × Impl :=
  match d._idToBallMap.modifyAt ballId.toStdSizeT (fun b => b.setPosition position) with
  | .error e => (.error e, d)
  | .ok r => (.ok (), { d with _idToBallMap := r })

/-- The loop of `Model::findBallByPosition` over the registry; `RADIUS_SQUARE`
is the constant `Ball::RADIUS_SQUARE`, whose value is not in the sources at
hand. -/
def findInRegistry (RADIUS_SQUARE : ℚ) (position : Vector2f) : Registry → Id
  | [] => Id.NULLID
  | e :: rest =>
    if (e.2.position.sub position).normSquare < RADIUS_SQUARE then ⟨e.1⟩
    else findInRegistry RADIUS_SQUARE position rest

/-- The query `Model::findBallByPosition`, a `const` member function. -/
def findBallByPosition (RADIUS_SQUARE : ℚ) (d : Impl) (position : Vector2f) : Id :=
  findInRegistry RADIUS_SQUARE position d._idToBallMap

/-- The operation `Model::removeBallLater(const utils::Vector2f&)`. -/
def removeBallLaterAt (RADIUS_SQUARE : ℚ) (d : Impl) (position : Vector2f) :
    Except Failure Impl :=
  removeBallLater d (findBallByPosition RADIUS_SQUARE d position)

/-- The operation `Model::removeBall(const utils::Vector2f&)`. -/
def removeBallAt (RADIUS_SQUARE : ℚ) (d : Impl) (position : Vector2f) :
    Except Failure Impl :=
  removeBallLaterAt RADIUS_SQUARE d position

/-- The query `Model::ballsPositions`. -/
def ballsPositions (d : Impl) : List Vector2f :=
  d._idToBallMap.map (fun e => e.2.position)

/-- The query `Model::deltaT`. -/
def deltaT (d : Impl) : ℚ := d._deltaT

/-- The operation `Model::setDeltaT`. -/
def setDeltaT (d : Impl) (deltaT : ℚ) : Impl := { d with _deltaT := deltaT }

/-- The query `Model::ballsNumber`. -/
def ballsNumber (d : Impl) : Nat := d._idToBallMap.length

/-- The query `Model::ballIds`. -/
def ballIds (d : Impl) : List Id := d._idToBallMap.map (fun e => (⟨e.1⟩ : Id))

/-- The query `Model::ballPosition`. -/
def ballPosition (d : Impl) (ballId : Id) : Except Failure Vector2f :=
  match d._idToBallMap.find ballId.toStdSizeT with
  | some b => .ok b.position
  | none => .error .outOfRange

namespace Impl

/-- The constructor `Model::Impl::Impl`: two default-constructed balls.  The
default position of `Ball()` and the state of the id counter are not in the
sources at hand, so the two positions and the first id are arguments. -/
def init (firstId : Nat) (p0 p1 : Vector2f) : Impl :=
  { _idToBallMap :=
      (Registry.emplace [] firstId (Ball.create ⟨firstId⟩ p0)).emplace
        (firstId + 1) (Ball.create ⟨firstId + 1⟩ p1)
    _idBallsToDelete := []
    _ballsToCreate := []
    _simulationIsActive := false
    _deltaT := 1 / 1000
    nextId := firstId + 2 }

/-- The first loop of `simulate`: balls are updated in place one after the
other, each force is computed against the map as it stands at that moment.
`calculateForceForBall` is `Physics::calculateForceForBall`, which is not in
the sources at hand. -/
def applyForces (calculateForceForBall : Ball → Registry → Vector2f) (deltaT : ℚ) :
    Registry → Registry → Registry
  | done, [] => done
  | done, e :: rest =>
    applyForces calculateForceForBall deltaT
      (done ++ [(e.1, e.2.applyForce (calculateForceForBall e.2 (done ++ e :: rest)) deltaT)])
      rest

/-- The second loop of `simulate`: every ball makes its step. -/
def makeSteps (deltaT : ℚ) (r : Registry) : Registry :=
  r.map (fun e => (e.1, e.2.makeStep deltaT))

/-- One pass through the body of the `while` loop of `Model::Impl::simulate`. -/
def simulate (calculateForceForBall : Ball → Registry → Vector2f) (d : Impl) :
    Except Failure Impl :=
  let d1 : Impl :=
    { d with _idToBallMap := applyForces calculateForceForBall d._deltaT [] d._idToBallMap }
  match d1.deleteBalls with
  | .error e => .error e
  | .ok d2 =>
    let d3 := d2.createBalls
    let d4 : Impl := { d3 with _idToBallMap := makeSteps d3._deltaT d3._idToBallMap }
    match d4.deleteBalls with
    | .error e => .error e
    | .ok d5 => .ok d5.createBalls

/-- The member `Model::Impl::stopSimulation`: under the lock it clears the
flag, then `_thread->join()` waits until the background thread has left the
loop.  `passInFlight` says where that thread stands when the flag is cleared:
at the test of the `while` loop (`false`), which it then leaves at once, or
just past that test (`true`), so that it runs one more pass through the loop
body before it tests the flag again and leaves. -/
def stopSimulation (calculateForceForBall : Ball → Registry → Vector2f)
    (passInFlight : Bool) (d : Impl) : Except Failure Impl :=
  let d1 : Impl := { d with _simulationIsActive := false }
  if passInFlight then simulate calculateForceForBall d1 else .ok d1

/-- The ids waiting in the Pending-Creation Queue. -/
def pendingCreationIds (d : Impl) : List Nat :=
  d._ballsToCreate.map (fun b => b.id.toStdSizeT)

/-- The ids waiting in the Pending-Deletion Queue. -/
def pendingDeletionIds (d : Impl) : List Nat :=
  d._idBallsToDelete.map (fun i => i.toStdSizeT)

/-- The representation invariant of the state: the map has unique keys, no
key is the null id, every id handed out so far lies below the counter, and no
queued ball shares its id with a live ball or with another queued ball. -/
structure WellFormed (d : Impl) : Prop where
  keysNodup : d._idToBallMap.keys.Nodup
  keysBound : ∀ k ∈ d._idToBallMap.keys, 0 < k ∧ k < d.nextId
  pendingNodup : d.pendingCreationIds.Nodup
  pendingBound : ∀ k ∈ d.pendingCreationIds, 0 < k ∧ k < d.nextId
  disjoint : ∀ k ∈ d._idToBallMap.keys, k ∉ d.pendingCreationIds
  counterPos : 0 < d.nextId

end Impl

/-- The operation `Model::startStopSimulation`.  Spawning the thread leaves
the modelled state as it is; in the other branch the flag is cleared and the
velocities are set to zero before `stopSimulation` joins the thread. -/
def startStopSimulation (calculateForceForBall : Ball → Registry → Vector2f)
    (passInFlight : Bool) (d : Impl) : Except Failure Impl :=
  if !d._simulationIsActive then .ok { d with _simulationIsActive := true }
  else
    Impl.stopSimulation calculateForceForBall passInFlight
      { d with
        _simulationIsActive := false
        _idToBallMap := d._idToBallMap.map (fun e => (e.1, e.2.setSpeed Vector2f.zero)) }

/-- The states a caller can observe: those reached from a freshly constructed
model by public operations that return and by completed passes of the
simulation loop. -/
inductive Reachable (RADIUS_SQUARE : ℚ) (calculateForceForBall : Ball → Registry → Vector2f) :
    Impl → Prop
  | init (firstId : Nat) (p0 p1 : Vector2f) (h : 0 < firstId) :
      Reachable RADIUS_SQUARE calculateForceForBall (Impl.init firstId p0 p1)
  | addBall {d : Impl} (position : Vector2f) :
      Reachable RADIUS_SQUARE calculateForceForBall d →
      Reachable RADIUS_SQUARE calculateForceForBall (addBall d position).2
  | removeBall {d d1 : Impl} (ballId : Id) :
      Reachable RADIUS_SQUARE calculateForceForBall d →
      removeBall d ballId = .ok d1 →
      Reachable RADIUS_SQUARE calculateForceForBall d1
  | removeBallAt {d d1 : Impl} (position : Vector2f) :
      Reachable RADIUS_SQUARE calculateForceForBall d →
      removeBallAt RADIUS_SQUARE d position = .ok d1 →
      Reachable RADIUS_SQUARE calculateForceForBall d1
  | moveBall {d : Impl} (ballId : Id) (position : Vector2f) :
      Reachable RADIUS_SQUARE calculateForceForBall d →
      Reachable RADIUS_SQUARE calculateForceForBall (moveBall d ballId position).2
  | setBallFixed {d : Impl} (ballId : Id) (fixed : Bool) :
      Reachable RADIUS_SQUARE calculateForceForBall d →
      Reachable RADIUS_SQUARE calculateForceForBall (setBallFixed d ballId fixed).2
  | startStopSimulation {d d1 : Impl} (passInFlight : Bool) :
      Reachable RADIUS_SQUARE calculateForceForBall d →
      startStopSimulation calculateForceForBall passInFlight d = .ok d1 →
      Reachable RADIUS_SQUARE calculateForceForBall d1
  | setDeltaT {d : Impl} (deltaT : ℚ) :
      Reachable RADIUS_SQUARE calculateForceForBall d →
      Reachable RADIUS_SQUARE calculateForceForBall (setDeltaT d deltaT)
  | simulate {d d1 : Impl} :
      Reachable RADIUS_SQUARE calculateForceForBall d →
      d._simulationIsActive = true →
      Impl.simulate calculateForceForBall d = .ok d1 →
      Reachable RADIUS_SQUARE calculateForceForBall d1

/-- A freshly constructed model: ids 1 and 2, the balls at rest at (0, 0) and
(10, 0), the simulation stopped. -/
def exampleStopped : Impl := Impl.init 1 ⟨0, 0⟩ ⟨10, 0⟩

/-- A running model in which the two balls move towards each other: ball 1 at
the origin with velocity (1, 0), ball 2 at (10, 0) with velocity (-1, 0). -/
def exampleMoving : Impl :=
  { _idToBallMap :=
      [(1, ⟨⟨1⟩, ⟨0, 0⟩, ⟨1, 0⟩, false⟩), (2, ⟨⟨2⟩, ⟨10, 0⟩, ⟨-1, 0⟩, false⟩)]
    _idBallsToDelete := []
    _ballsToCreate := []
    _simulationIsActive := true
    _deltaT := 1 / 1000
    nextId := 3 }

/-- A freshly constructed model (ids 1 and 2) right after
`startStopSimulation()` has started the simulation. -/
def exampleRunning : Impl := { exampleStopped with _simulationIsActive := true }

/-- The running model after `addBall((5, 5))`, which queued a ball with id 3,
and `removeBall(3)`, which queued that id for deletion. -/
def exampleAddedThenRemoved : Impl :=
  { exampleRunning with
    _ballsToCreate := [Ball.create ⟨3⟩ ⟨5, 5⟩]
    _idBallsToDelete := [⟨3⟩]
    nextId := 4 }

/-- A running model with the two balls of the repository's test of the force
law: ball 1 at (0, 0) and ball 2 at (3, 4), both at rest. -/
def exampleTestBalls : Impl :=
  { Impl.init 1 ⟨0, 0⟩ ⟨3, 4⟩ with _simulationIsActive := true }

/-- A force law for `exampleTestBalls`: on ball 1 the force (0.096, 0.128)
that the repository's test expects for these positions, on the other ball the
opposite force. -/
def exampleTestForce : Ball → Registry → Vector2f := fun b _ =>
  if b.id.toStdSizeT = 1 then ⟨12 / 125, 16 / 125⟩ else ⟨-(12 / 125), -(16 / 125)⟩

/-- The force law that is zero everywhere, to run the examples with. -/
def exampleForce : Ball → Registry → Vector2f := fun _ _ => Vector2f.zero

end Model

/-! ## The registry as a finite map -/

namespace Registry

theorem keys_cons (e : Nat × Ball) (r : Registry) : keys (e :: r) = e.1 :: keys r := rfl

theorem keys_append (r s : Registry) : keys (r ++ s) = keys r ++ keys s := by
  simp [keys]

theorem mem_keys_iff_find (r : Registry) (key : Nat) :
    key ∈ keys r ↔ ∃ b, find r key = some b := by
  induction r with
  | nil => simp [keys, find]
  | cons e rest ih =>
    by_cases h : e.1 = key
    · simp [keys_cons, find, h]
    · have h1 : ¬ key = e.1 := fun hk => h hk.symm
      simp [keys_cons, find, h, h1, ih]

theorem find_of_mem (r : Registry) (key : Nat) (b : Ball) (hn : (keys r).Nodup)
    (h : (key, b) ∈ r) : find r key = some b := by
  induction r with
  | nil => simp at h
  | cons e rest ih =>
    rw [keys_cons, List.nodup_cons] at hn
    rcases List.mem_cons.mp h with h1 | h1
    · subst h1; simp [find]
    · have hk : key ∈ keys rest := List.mem_map.mpr ⟨(key, b), h1, rfl⟩
      have hne : ¬ e.1 = key := fun he => hn.1 (he ▸ hk)
      simp [find, hne, ih hn.2 h1]

theorem find_append_of_find (r s : Registry) (key : Nat) (b : Ball)
    (h : find r key = some b) : find (r ++ s) key = some b := by
  induction r with
  | nil => simp [find] at h
  | cons e rest ih =>
    by_cases hk : e.1 = key
    · simp [find, hk] at h
      simp [find, hk, h]
    · simp [find, hk] at h
      simp [find, hk, ih h]

theorem find_append_of_not_mem (r s : Registry) (key : Nat) (h : key ∉ keys r) :
    find (r ++ s) key = find s key := by
  induction r with
  | nil => rfl
  | cons e rest ih =>
    rw [keys_cons, List.mem_cons, not_or] at h
    have hk : ¬ e.1 = key := fun hk => h.1 hk.symm
    simp [find, hk, ih h.2]

theorem emplace_of_not_mem (r : Registry) (key : Nat) (ball : Ball) (h : key ∉ keys r) :
    emplace r key ball = r ++ [(key, ball)] := by
  simp [emplace, h]

theorem emplace_of_mem (r : Registry) (key : Nat) (ball : Ball) (h : key ∈ keys r) :
    emplace r key ball = r := by
  simp [emplace, h]

theorem mem_keys_emplace (r : Registry) (key : Nat) (ball : Ball) (k : Nat) :
    k ∈ keys (emplace r key ball) ↔ k ∈ keys r ∨ k = key := by
  by_cases h : key ∈ keys r
  · rw [emplace_of_mem r key ball h]
    constructor
    · exact Or.inl
    · rintro (h1 | h1)
      · exact h1
      · rw [h1]; exact h
  · rw [emplace_of_not_mem r key ball h, keys_append]
    simp [keys]

theorem nodup_keys_emplace (r : Registry) (key : Nat) (ball : Ball) (h : (keys r).Nodup) :
    (keys (emplace r key ball)).Nodup := by
  by_cases hk : key ∈ keys r
  · rw [emplace_of_mem r key ball hk]; exact h
  · rw [emplace_of_not_mem r key ball hk, keys_append]
    have : keys [(key, ball)] = [key] := rfl
    rw [this]
    exact List.Nodup.append h (List.nodup_singleton key) (by
      intro a ha hb
      rw [List.mem_singleton] at hb
      exact hk (hb ▸ ha))

theorem keys_erase (r : Registry) (key : Nat) : keys (erase r key) = (keys r).erase key := by
  induction r with
  | nil => rfl
  | cons e rest ih =>
    by_cases h : e.1 = key
    · simp [erase, keys_cons, h]
    · have h1 : (e.1 == key) = false := by simp [h]
      simp [erase, keys_cons, h, ih, List.erase_cons, h1]

theorem mem_keys_of_mem_keys_erase (r : Registry) (key k : Nat)
    (h : k ∈ keys (erase r key)) : k ∈ keys r := by
  rw [keys_erase] at h
  exact List.mem_of_mem_erase h

theorem nodup_keys_erase (r : Registry) (key : Nat) (h : (keys r).Nodup) :
    (keys (erase r key)).Nodup := by
  rw [keys_erase]
  exact h.erase key

theorem mem_keys_erase_iff (r : Registry) (key k : Nat) (h : (keys r).Nodup) :
    k ∈ keys (erase r key) ↔ k ≠ key ∧ k ∈ keys r := by
  rw [keys_erase]
  exact h.mem_erase_iff

theorem find_erase_other (r : Registry) (key other : Nat) (h : other ≠ key) :
    find (erase r key) other = find r other := by
  induction r with
  | nil => rfl
  | cons e rest ih =>
    by_cases hk : e.1 = key
    · have h2 : ¬ key = other := fun h2 => h h2.symm
      simp [erase, find, hk, h2]
    · by_cases ho : e.1 = other
      · have h3 : ¬ other = key := h
        simp [erase, find, ho, h3]
      · simp [erase, find, hk, ho, ih]

theorem keys_update (r : Registry) (key : Nat) (f : Ball → Ball) :
    keys (update r key f) = keys r := by
  induction r with
  | nil => rfl
  | cons e rest ih =>
    have ih1 : keys (List.map (fun e => if e.1 = key then (e.1, f e.2) else e) rest)
        = keys rest := ih
    simp only [update, List.map_cons, keys_cons, ih1]
    by_cases h : e.1 = key <;> simp [h]

theorem find_update_same (r : Registry) (key : Nat) (f : Ball → Ball) (b : Ball)
    (h : find r key = some b) : find (update r key f) key = some (f b) := by
  induction r with
  | nil => simp [find] at h
  | cons e rest ih =>
    by_cases hk : e.1 = key
    · simp [find, hk] at h
      simp [update, find, hk, h]
    · simp [find, hk] at h
      have := ih h
      simp only [update] at this
      simp [update, find, hk, this]

theorem find_update_other (r : Registry) (key other : Nat) (f : Ball → Ball)
    (h : other ≠ key) : find (update r key f) other = find r other := by
  induction r with
  | nil => rfl
  | cons e rest ih =>
    simp only [update] at ih
    by_cases hk : e.1 = key
    · have h1 : ¬ key = other := fun h1 => h h1.symm
      have h2 : ¬ e.1 = other := fun h2 => h (h2.symm.trans hk)
      simp [update, find, hk, h1, ih]
    · by_cases ho : e.1 = other
      · have h3 : ¬ other = key := h
        simp [update, find, ho, h3]
      · simp [update, find, hk, ho, ih]

theorem modifyAt_of_find (r : Registry) (key : Nat) (f : Ball → Ball) (b : Ball)
    (h : find r key = some b) : modifyAt r key f = .ok (update r key f) := by
  have : key ∈ keys r := (mem_keys_iff_find r key).mpr ⟨b, h⟩
  simp [modifyAt, this]

theorem modifyAt_of_mem (r : Registry) (key : Nat) (f : Ball → Ball)
    (h : key ∈ keys r) : modifyAt r key f = .ok (update r key f) := by
  simp [modifyAt, h]

theorem modifyAt_of_not_mem (r : Registry) (key : Nat) (f : Ball → Ball)
    (h : key ∉ keys r) : modifyAt r key f = .error .outOfRange := by
  simp [modifyAt, h]

end Registry

namespace Model

/-! ## Pinning and unpinning -/

theorem setBallFixed_true_eq (d : Impl) (ballId : Id) (b : Ball)
    (h : d._idToBallMap.find ballId.toStdSizeT = some b) :
    setBallFixed d ballId true
      = (.ok (), { d with _idToBallMap :=
          d._idToBallMap.update ballId.toStdSizeT (fun b => b.setFixed true) }) := by
  have h1 := Registry.modifyAt_of_find d._idToBallMap ballId.toStdSizeT
    (fun b => b.setFixed true) b h
  simp only [setBallFixed, Bool.not_true, Bool.false_eq_true, if_false, h1]

theorem setBallFixed_false_eq (d : Impl) (ballId : Id) (b : Ball)
    (h : d._idToBallMap.find ballId.toStdSizeT = some b) :
    setBallFixed d ballId false
      = (.ok (), { d with _idToBallMap :=
          (Registry.update
            (Registry.update d._idToBallMap ballId.toStdSizeT (fun b => b.setSpeed Vector2f.zero))
            ballId.toStdSizeT (fun b => b.setFixed false)) }) := by
  have h1 := Registry.modifyAt_of_find d._idToBallMap ballId.toStdSizeT
    (fun b => b.setSpeed Vector2f.zero) b h
  have h2 := Registry.find_update_same d._idToBallMap ballId.toStdSizeT
    (fun b => b.setSpeed Vector2f.zero) b h
  have h3 := Registry.modifyAt_of_find _ ballId.toStdSizeT (fun b => b.setFixed false) _ h2
  simp only [setBallFixed, Bool.not_false, if_true, h1, h3]

/-- C1, as stated, fails: in the running model `exampleMoving` the ball with
id 1 is in the registry and moves with velocity (1, 0); `setBallFixed(1, true)` returns, the
ball is pinned, and its velocity is still (1, 0), not the zero vector. -/
theorem setBallFixed_true_velocity_counterexample :
    (1 : Nat) ∈ exampleMoving._idToBallMap.keys ∧
    (setBallFixed exampleMoving ⟨1⟩ true).1 = .ok () ∧
    (setBallFixed exampleMoving ⟨1⟩ true).2._idToBallMap.find 1
      = some ⟨⟨1⟩, ⟨0, 0⟩, ⟨1, 0⟩, true⟩ ∧
    (⟨1, 0⟩ : Vector2f) ≠ Vector2f.zero := by
  refine ⟨by decide, rfl, rfl, ?_⟩
  simp [Vector2f.zero]

/-- C1 (amended): for every model state and every id present in the registry,
`setBallFixed(id, true)` returns normally and afterwards the ball stored under
that id has its pinned flag true while its velocity, position and id are what
they were before the call. -/
theorem setBallFixed_true_pins_and_keeps_velocity (d : Impl) (ballId : Id) (b : Ball)
    (h : d._idToBallMap.find ballId.toStdSizeT = some b) :
    (setBallFixed d ballId true).1 = .ok () ∧
    (setBallFixed d ballId true).2._idToBallMap.find ballId.toStdSizeT
      = some { b with isFixed := true } := by
  rw [setBallFixed_true_eq d ballId b h]
  exact ⟨rfl, Registry.find_update_same d._idToBallMap ballId.toStdSizeT
    (fun b => b.setFixed true) b h⟩

theorem setBallFixed_true_pins_and_keeps_velocity_witness :
    exampleMoving._idToBallMap.find (⟨1⟩ : Id).toStdSizeT = some ⟨⟨1⟩, ⟨0, 0⟩, ⟨1, 0⟩, false⟩ ∧
    (setBallFixed exampleMoving ⟨1⟩ true).1 = .ok () ∧
    (setBallFixed exampleMoving ⟨1⟩ true).2._idToBallMap.find (⟨1⟩ : Id).toStdSizeT
      = some ⟨⟨1⟩, ⟨0, 0⟩, ⟨1, 0⟩, true⟩ :=
  ⟨rfl, setBallFixed_true_pins_and_keeps_velocity exampleMoving ⟨1⟩
    ⟨⟨1⟩, ⟨0, 0⟩, ⟨1, 0⟩, false⟩ rfl⟩

/-- C2, as stated, fails: in the running model `exampleMoving` the ball with
id 1 moves with velocity (1, 0); `setBallFixed(1, false)` returns and the ball's velocity has
become the zero vector. -/
theorem setBallFixed_false_velocity_counterexample :
    exampleMoving._idToBallMap.find 1 = some ⟨⟨1⟩, ⟨0, 0⟩, ⟨1, 0⟩, false⟩ ∧
    (setBallFixed exampleMoving ⟨1⟩ false).1 = .ok () ∧
    (setBallFixed exampleMoving ⟨1⟩ false).2._idToBallMap.find 1
      = some ⟨⟨1⟩, ⟨0, 0⟩, Vector2f.zero, false⟩ ∧
    (⟨1, 0⟩ : Vector2f) ≠ Vector2f.zero := by
  refine ⟨rfl, rfl, rfl, ?_⟩
  simp [Vector2f.zero]

/-- C2 (amended): for every model state and every id present in the registry,
`setBallFixed(id, false)` returns normally and afterwards the ball stored
under that id has velocity zero and its pinned flag false, with its position
and id unchanged; every other ball of the registry is untouched. -/
theorem setBallFixed_false_unpins_and_zeroes_velocity (d : Impl) (ballId : Id) (b : Ball)
    (h : d._idToBallMap.find ballId.toStdSizeT = some b) :
    (setBallFixed d ballId false).1 = .ok () ∧
    (setBallFixed d ballId false).2._idToBallMap.find ballId.toStdSizeT
      = some { b with speed := Vector2f.zero, isFixed := false } ∧
    ∀ other : Nat, other ≠ ballId.toStdSizeT →
      (setBallFixed d ballId false).2._idToBallMap.find other = d._idToBallMap.find other := by
  have h2 := Registry.find_update_same d._idToBallMap ballId.toStdSizeT
    (fun b => b.setSpeed Vector2f.zero) b h
  have h4 := Registry.find_update_same _ ballId.toStdSizeT (fun b => b.setFixed false) _ h2
  rw [setBallFixed_false_eq d ballId b h]
  refine ⟨rfl, h4, ?_⟩
  intro other ho
  simp only [Registry.find_update_other _ _ _ _ ho]

theorem setBallFixed_false_unpins_and_zeroes_velocity_witness :
    exampleMoving._idToBallMap.find (⟨1⟩ : Id).toStdSizeT = some ⟨⟨1⟩, ⟨0, 0⟩, ⟨1, 0⟩, false⟩ ∧
    ((setBallFixed exampleMoving ⟨1⟩ false).1 = .ok () ∧
    (setBallFixed exampleMoving ⟨1⟩ false).2._idToBallMap.find (⟨1⟩ : Id).toStdSizeT
      = some ⟨⟨1⟩, ⟨0, 0⟩, Vector2f.zero, false⟩ ∧
    ∀ other : Nat, other ≠ (⟨1⟩ : Id).toStdSizeT →
      (setBallFixed exampleMoving ⟨1⟩ false).2._idToBallMap.find other
        = exampleMoving._idToBallMap.find other) :=
  ⟨rfl, setBallFixed_false_unpins_and_zeroes_velocity exampleMoving ⟨1⟩
    ⟨⟨1⟩, ⟨0, 0⟩, ⟨1, 0⟩, false⟩ rfl⟩

/-! ## Deleting an id that is not in the registry -/

/-- In a stopped model with an empty Pending-Deletion Queue, `removeBall` of
a non-null id that is not a key of the registry reaches `erase(end())`. -/
theorem removeBall_stopped_absent (d : Impl) (ballId : Id)
    (hs : d._simulationIsActive = false) (hq : d._idBallsToDelete = [])
    (hz : ballId.isNull = false) (hk : ballId.toStdSizeT ∉ d._idToBallMap.keys) :
    removeBall d ballId = .error .eraseEnd := by
  simp [removeBall, removeBallLater, hz, hs, hq, Impl.deleteBalls, Impl.eraseQueued,
    Registry.eraseFound, hk]

/-- C3: the code does not ignore an absent id.  In the stopped model
`exampleStopped` (registry ids 1 and 2, both queues empty) the id 7 was never
in the registry: `removeBall(7)` reaches `erase(find(7))` with `find(7)` equal
to `end()`.  Removing id 1 twice does the same: the first call returns and
leaves only id 2 in a stopped model with empty queues, the second call
reaches `erase(end())`. -/
theorem removeBall_absent_id_erases_end :
    exampleStopped._simulationIsActive = false ∧
    exampleStopped._idToBallMap.keys = [1, 2] ∧
    removeBall exampleStopped ⟨7⟩ = .error .eraseEnd ∧
    ∃ d1, removeBall exampleStopped ⟨1⟩ = .ok d1 ∧
      d1._idToBallMap.keys = [2] ∧ d1._simulationIsActive = false ∧
      d1._idBallsToDelete = [] ∧ d1._ballsToCreate = [] ∧
      removeBall d1 ⟨1⟩ = .error .eraseEnd :=
  ⟨rfl, rfl, rfl, _, rfl, rfl, rfl, rfl, rfl, rfl⟩

/-! ## Moving a ball -/

/-- C5: `moveBall(id, p)` throws exactly when `id` is not a key of the
registry, and then the state is what it was; when `id` is a key the call
returns, `ballPosition(id)` is `p`, the ball under `id` differs from before in
its position only, every other ball is untouched, and the key list, both
queues, the running flag, the time step and the id counter are unchanged. -/
theorem moveBall_spec (d : Impl) (ballId : Id) (position : Vector2f) :
    ((∃ e, (moveBall d ballId position).1 = .error e)
      ↔ ballId.toStdSizeT ∉ d._idToBallMap.keys) ∧
    (ballId.toStdSizeT ∉ d._idToBallMap.keys →
      (moveBall d ballId position).1 = .error .outOfRange ∧
      (moveBall d ballId position).2 = d) ∧
    (ballId.toStdSizeT ∈ d._idToBallMap.keys →
      (moveBall d ballId position).1 = .ok () ∧
      ballPosition (moveBall d ballId position).2 ballId = .ok position ∧
      (∀ b, d._idToBallMap.find ballId.toStdSizeT = some b →
        (moveBall d ballId position).2._idToBallMap.find ballId.toStdSizeT
          = some { b with position := position }) ∧
      (∀ other : Nat, other ≠ ballId.toStdSizeT →
        (moveBall d ballId position).2._idToBallMap.find other = d._idToBallMap.find other) ∧
      (moveBall d ballId position).2._idToBallMap.keys = d._idToBallMap.keys ∧
      (moveBall d ballId position).2._idBallsToDelete = d._idBallsToDelete ∧
      (moveBall d ballId position).2._ballsToCreate = d._ballsToCreate ∧
      (moveBall d ballId position).2._simulationIsActive = d._simulationIsActive ∧
      (moveBall d ballId position).2._deltaT = d._deltaT ∧
      (moveBall d ballId position).2.nextId = d.nextId) := by
  by_cases hk : ballId.toStdSizeT ∈ d._idToBallMap.keys
  · have hm := Registry.modifyAt_of_mem d._idToBallMap ballId.toStdSizeT
      (fun b => b.setPosition position) hk
    have he : moveBall d ballId position
        = (.ok (), { d with _idToBallMap :=
            d._idToBallMap.update ballId.toStdSizeT (fun b => b.setPosition position) }) := by
      simp only [moveBall, hm]
    obtain ⟨b, hb⟩ := (Registry.mem_keys_iff_find _ _).mp hk
    have hs := Registry.find_update_same d._idToBallMap ballId.toStdSizeT
      (fun b => b.setPosition position) b hb
    rw [he]
    refine ⟨⟨fun ⟨e, h⟩ => by simp at h, fun h => absurd hk h⟩, fun h => absurd hk h, fun _ => ?_⟩
    refine ⟨rfl, ?_, ?_, ?_,
      Registry.keys_update d._idToBallMap ballId.toStdSizeT (fun b => b.setPosition position),
      rfl, rfl, rfl, rfl, rfl⟩
    · simp only [ballPosition, hs]
      rfl
    · intro b1 hb1
      rw [hb] at hb1
      cases hb1
      exact hs
    · intro other ho
      exact Registry.find_update_other d._idToBallMap ballId.toStdSizeT other
        (fun b => b.setPosition position) ho
  · have hm := Registry.modifyAt_of_not_mem d._idToBallMap ballId.toStdSizeT
      (fun b => b.setPosition position) hk
    have he : moveBall d ballId position = (.error .outOfRange, d) := by
      simp only [moveBall, hm]
    rw [he]
    exact ⟨⟨fun _ => hk, fun _ => ⟨_, rfl⟩⟩, fun _ => ⟨rfl, rfl⟩, fun h => absurd h hk⟩

/-! ## Finding a ball by position -/

theorem isNull_iff (i : Id) : i.isNull = true ↔ i.toStdSizeT = 0 := by
  cases i with
  | mk n => simp [Id.isNull, Id.NULLID]

theorem isNull_eq_false_iff (i : Id) : i.isNull = false ↔ i.toStdSizeT ≠ 0 := by
  constructor
  · intro h hz
    rw [(isNull_iff i).mpr hz] at h
    cases h
  · intro h
    cases hn : i.isNull
    · rfl
    · exact absurd ((isNull_iff i).mp hn) h

/-- The scan either finds no ball within the radius and returns the null id,
or returns the key of an entry of the registry that is within the radius. -/
theorem findInRegistry_cases (RADIUS_SQUARE : ℚ) (position : Vector2f) (r : Registry) :
    (findInRegistry RADIUS_SQUARE position r = Id.NULLID ∧
      ∀ e ∈ r, ¬ (e.2.position.sub position).normSquare < RADIUS_SQUARE) ∨
    (∃ e ∈ r, (e.2.position.sub position).normSquare < RADIUS_SQUARE ∧
      findInRegistry RADIUS_SQUARE position r = ⟨e.1⟩) := by
  induction r with
  | nil => exact Or.inl ⟨rfl, by simp⟩
  | cons e rest ih =>
    by_cases h : (e.2.position.sub position).normSquare < RADIUS_SQUARE
    · exact Or.inr ⟨e, List.mem_cons_self _ _, h, by simp [findInRegistry, h]⟩
    · rcases ih with ⟨h1, h2⟩ | ⟨e1, he1, h1, h2⟩
      · refine Or.inl ⟨by simp [findInRegistry, h, h1], ?_⟩
        intro e2 he2
        rcases List.mem_cons.mp he2 with h3 | h3
        · rw [h3]; exact h
        · exact h2 e2 h3
      · exact Or.inr ⟨e1, List.mem_cons_of_mem _ he1, h1, by simp [findInRegistry, h, h2]⟩

/-- C8: in a well-formed model state `findBallByPosition(p)` returns the null
id exactly when no ball of the registry has squared distance to `p` strictly
below `Ball::RADIUS_SQUARE`; a non-null result is a key of the registry and
the ball stored under it has squared distance to `p` strictly below
`Ball::RADIUS_SQUARE`.  The query is a `const` member function: it is a
function of the state and returns no new state. -/
theorem findBallByPosition_spec (RADIUS_SQUARE : ℚ) (d : Impl) (position : Vector2f)
    (hwf : d.WellFormed) :
    ((findBallByPosition RADIUS_SQUARE d position).isNull = true ↔
      ∀ e ∈ d._idToBallMap, ¬ (e.2.position.sub position).normSquare < RADIUS_SQUARE) ∧
    ((findBallByPosition RADIUS_SQUARE d position).isNull = false →
      (findBallByPosition RADIUS_SQUARE d position).toStdSizeT ∈ d._idToBallMap.keys ∧
      ∃ b, d._idToBallMap.find (findBallByPosition RADIUS_SQUARE d position).toStdSizeT = some b ∧
        (b.position.sub position).normSquare < RADIUS_SQUARE) := by
  rcases findInRegistry_cases RADIUS_SQUARE position d._idToBallMap with
    ⟨h1, h2⟩ | ⟨e, he, h1, h2⟩
  · have hn : (findBallByPosition RADIUS_SQUARE d position).isNull = true := by
      rw [findBallByPosition, h1]; rfl
    refine ⟨⟨fun _ => h2, fun _ => hn⟩, fun h => ?_⟩
    rw [hn] at h
    cases h
  · have hk : e.1 ∈ d._idToBallMap.keys := List.mem_map.mpr ⟨e, he, rfl⟩
    have hpos : e.1 ≠ 0 := Nat.pos_iff_ne_zero.mp (hwf.keysBound e.1 hk).1
    have hr : findBallByPosition RADIUS_SQUARE d position = ⟨e.1⟩ := h2
    have hf : d._idToBallMap.find e.1 = some e.2 :=
      Registry.find_of_mem _ _ _ hwf.keysNodup he
    rw [hr]
    refine ⟨⟨fun h => ?_, fun h => absurd h1 (h e he)⟩, fun _ => ⟨hk, e.2, hf, h1⟩⟩
    exact absurd ((isNull_iff _).mp h) hpos

theorem findBallByPosition_spec_witness :
    ((findBallByPosition 1 exampleStopped ⟨0, 0⟩).isNull = true ↔
      ∀ e ∈ exampleStopped._idToBallMap,
        ¬ (e.2.position.sub ⟨0, 0⟩).normSquare < 1) ∧
    ((findBallByPosition 1 exampleStopped ⟨0, 0⟩).isNull = false →
      (findBallByPosition 1 exampleStopped ⟨0, 0⟩).toStdSizeT
        ∈ exampleStopped._idToBallMap.keys ∧
      ∃ b, exampleStopped._idToBallMap.find
          (findBallByPosition 1 exampleStopped ⟨0, 0⟩).toStdSizeT = some b ∧
        (b.position.sub ⟨0, 0⟩).normSquare < 1) :=
  findBallByPosition_spec 1 exampleStopped ⟨0, 0⟩
    { keysNodup := by decide
      keysBound := by decide
      pendingNodup := by decide
      pendingBound := by decide
      disjoint := by decide
      counterPos := by decide }

/-! ## Removing nothing -/

/-- C9: in every model state `removeBall(NULLID)` returns and changes nothing,
and so does `removeBall(p)` for a position `p` such that no ball of the
registry has squared distance to `p` strictly below `Ball::RADIUS_SQUARE`:
the registry, both queues and all other fields are what they were. -/
theorem removeBall_empty_target_noop (RADIUS_SQUARE : ℚ) (d : Impl) (position : Vector2f)
    (h : ∀ e ∈ d._idToBallMap, ¬ (e.2.position.sub position).normSquare < RADIUS_SQUARE) :
    removeBall d Id.NULLID = .ok d ∧ removeBallAt RADIUS_SQUARE d position = .ok d := by
  have hf : findBallByPosition RADIUS_SQUARE d position = Id.NULLID := by
    rcases findInRegistry_cases RADIUS_SQUARE position d._idToBallMap with
      ⟨h1, _⟩ | ⟨e, he, h1, _⟩
    · exact h1
    · exact absurd h1 (h e he)
  refine ⟨rfl, ?_⟩
  rw [removeBallAt, removeBallLaterAt, hf]
  rfl

theorem removeBall_empty_target_noop_witness :
    removeBall exampleMoving Id.NULLID = .ok exampleMoving ∧
    removeBallAt 1 exampleMoving ⟨100, 100⟩ = .ok exampleMoving :=
  removeBall_empty_target_noop 1 exampleMoving ⟨100, 100⟩ (by
    intro e he
    simp only [exampleMoving, List.mem_cons, List.mem_singleton, List.not_mem_nil,
      or_false] at he
    rcases he with rfl | rfl <;> norm_num [Vector2f.sub, Vector2f.normSquare])

/-! ## Adding and removing a ball while the simulation is stopped -/

theorem addBall_stopped_eq (d : Impl) (position : Vector2f) (hwf : d.WellFormed)
    (hs : d._simulationIsActive = false) (hq : d._ballsToCreate = []) :
    addBall d position
      = (⟨d.nextId⟩,
         { d with
           _idToBallMap := d._idToBallMap ++ [(d.nextId, ⟨⟨d.nextId⟩, position, Vector2f.zero, false⟩)]
           _ballsToCreate := []
           nextId := d.nextId + 1 }) := by
  have hn : d.nextId ∉ d._idToBallMap.keys := fun h =>
    Nat.lt_irrefl _ (hwf.keysBound _ h).2
  simp [addBall, Ball.create, hs, hq, Impl.createBalls, Registry.emplace_of_not_mem _ _ _ hn]

/-- C6: in a well-formed stopped model state whose Pending-Creation Queue is
empty, `addBall(p)` returns a non-null id that was not a key of the registry;
afterwards that id is in `ballIds()`, `ballPosition(id)` is `p` (the new ball
has zero velocity and is not pinned), `ballsNumber()` is one more than before,
every ball that was in the registry is stored unchanged under its id, and the
Pending-Creation Queue is empty. -/
theorem addBall_stopped_spec (d : Impl) (position : Vector2f) (hwf : d.WellFormed)
    (hs : d._simulationIsActive = false) (hq : d._ballsToCreate = []) :
    (addBall d position).1.isNull = false ∧
    (addBall d position).1.toStdSizeT ∉ d._idToBallMap.keys ∧
    (addBall d position).1 ∈ ballIds (addBall d position).2 ∧
    ballPosition (addBall d position).2 (addBall d position).1 = .ok position ∧
    (addBall d position).2._idToBallMap.find (addBall d position).1.toStdSizeT
      = some ⟨(addBall d position).1, position, Vector2f.zero, false⟩ ∧
    ballsNumber (addBall d position).2 = ballsNumber d + 1 ∧
    (∀ (k : Nat) (b : Ball), d._idToBallMap.find k = some b →
      (addBall d position).2._idToBallMap.find k = some b) ∧
    (addBall d position).2._ballsToCreate = [] ∧
    (addBall d position).2._idBallsToDelete = d._idBallsToDelete := by
  have hn : d.nextId ∉ d._idToBallMap.keys := fun h =>
    Nat.lt_irrefl _ (hwf.keysBound _ h).2
  have hf : Registry.find
      (d._idToBallMap ++ [(d.nextId, (⟨⟨d.nextId⟩, position, Vector2f.zero, false⟩ : Ball))])
      d.nextId = some ⟨⟨d.nextId⟩, position, Vector2f.zero, false⟩ := by
    rw [Registry.find_append_of_not_mem _ _ _ hn]
    simp [Registry.find]
  rw [addBall_stopped_eq d position hwf hs hq]
  refine ⟨?_, hn, ?_, ?_, hf, ?_, ?_, rfl, rfl⟩
  · exact (isNull_eq_false_iff _).mpr (Nat.pos_iff_ne_zero.mp hwf.counterPos)
  · simp [ballIds]
  · simp only [ballPosition, hf]
  · simp [ballsNumber]
  · intro k b hb
    exact Registry.find_append_of_find _ _ _ _ hb

theorem addBall_stopped_spec_witness :
    (addBall exampleStopped ⟨5, 5⟩).1.isNull = false ∧
    (addBall exampleStopped ⟨5, 5⟩).1.toStdSizeT ∉ exampleStopped._idToBallMap.keys ∧
    (addBall exampleStopped ⟨5, 5⟩).1 ∈ ballIds (addBall exampleStopped ⟨5, 5⟩).2 ∧
    ballPosition (addBall exampleStopped ⟨5, 5⟩).2 (addBall exampleStopped ⟨5, 5⟩).1
      = .ok ⟨5, 5⟩ ∧
    (addBall exampleStopped ⟨5, 5⟩).2._idToBallMap.find
        (addBall exampleStopped ⟨5, 5⟩).1.toStdSizeT
      = some ⟨(addBall exampleStopped ⟨5, 5⟩).1, ⟨5, 5⟩, Vector2f.zero, false⟩ ∧
    ballsNumber (addBall exampleStopped ⟨5, 5⟩).2 = ballsNumber exampleStopped + 1 ∧
    (∀ (k : Nat) (b : Ball), exampleStopped._idToBallMap.find k = some b →
      (addBall exampleStopped ⟨5, 5⟩).2._idToBallMap.find k = some b) ∧
    (addBall exampleStopped ⟨5, 5⟩).2._ballsToCreate = [] ∧
    (addBall exampleStopped ⟨5, 5⟩).2._idBallsToDelete = exampleStopped._idBallsToDelete :=
  addBall_stopped_spec exampleStopped ⟨5, 5⟩
    { keysNodup := by decide
      keysBound := by decide
      pendingNodup := by decide
      pendingBound := by decide
      disjoint := by decide
      counterPos := by decide }
    rfl rfl

theorem removeBall_stopped_eq (d : Impl) (ballId : Id) (hwf : d.WellFormed)
    (hs : d._simulationIsActive = false) (hq : d._idBallsToDelete = [])
    (hk : ballId.toStdSizeT ∈ d._idToBallMap.keys) :
    removeBall d ballId
      = .ok { d with
              _idToBallMap := d._idToBallMap.erase ballId.toStdSizeT
              _idBallsToDelete := [] } := by
  have hz : ballId.isNull = false :=
    (isNull_eq_false_iff _).mpr (Nat.pos_iff_ne_zero.mp (hwf.keysBound _ hk).1)
  simp [removeBall, removeBallLater, hz, hs, hq, Impl.deleteBalls, Impl.eraseQueued,
    Registry.eraseFound, hk]

/-- C7, as stated, fails.  Start the freshly constructed model (ids 1 and 2),
call `removeBall(1)`, which queues id 1, and stop the model while the
background thread stands at the test of the loop: the model is stopped, ids 1
and 2 are in the registry and id 1 is still in the Pending-Deletion Queue.
Then `removeBall(2)` returns and has erased both balls, so the registry is
empty and not the previous registry without id 2. -/
theorem removeBall_stopped_leftover_queue_counterexample :
    ∃ d1 d2 d3, removeBall exampleRunning ⟨1⟩ = .ok d1 ∧
      startStopSimulation exampleForce false d1 = .ok d2 ∧
      Reachable 1 exampleForce d2 ∧
      d2._simulationIsActive = false ∧
      d2._idToBallMap.keys = [1, 2] ∧
      d2.pendingDeletionIds = [1] ∧
      removeBall d2 ⟨2⟩ = .ok d3 ∧
      d3._idToBallMap.keys = [] :=
  ⟨_, _, _, rfl, rfl,
    Reachable.startStopSimulation false
      (Reachable.removeBall ⟨1⟩
        (Reachable.startStopSimulation false
          (Reachable.init 1 ⟨0, 0⟩ ⟨10, 0⟩ (by decide)) rfl) rfl) rfl,
    rfl, rfl, rfl, rfl, rfl⟩

/-- C7 (amended): in a well-formed stopped model state whose Pending-Deletion
Queue is empty, `removeBall(id)` for an id in the registry returns and is applied at
once: the keys of the registry are the previous keys without `id`, every
other ball is stored unchanged under its id, the Pending-Deletion Queue is
empty, and the Pending-Creation Queue, the running flag, the time step and the
id counter are what they were. -/
theorem removeBall_stopped_spec (d : Impl) (ballId : Id) (hwf : d.WellFormed)
    (hs : d._simulationIsActive = false) (hq : d._idBallsToDelete = [])
    (hk : ballId.toStdSizeT ∈ d._idToBallMap.keys) :
    ∃ d1, removeBall d ballId = .ok d1 ∧
      (∀ k : Nat, k ∈ d1._idToBallMap.keys ↔ k ≠ ballId.toStdSizeT ∧ k ∈ d._idToBallMap.keys) ∧
      (∀ other : Nat, other ≠ ballId.toStdSizeT →
        d1._idToBallMap.find other = d._idToBallMap.find other) ∧
      d1._idBallsToDelete = [] ∧
      d1._ballsToCreate = d._ballsToCreate ∧
      d1._simulationIsActive = d._simulationIsActive ∧
      d1._deltaT = d._deltaT ∧
      d1.nextId = d.nextId := by
  refine ⟨_, removeBall_stopped_eq d ballId hwf hs hq hk, ?_, ?_, rfl, rfl, rfl, rfl, rfl⟩
  · intro k
    exact Registry.mem_keys_erase_iff _ _ _ hwf.keysNodup
  · intro other ho
    exact Registry.find_erase_other _ _ _ ho

theorem removeBall_stopped_spec_witness :
    ∃ d1, removeBall exampleStopped ⟨1⟩ = .ok d1 ∧
      (∀ k : Nat, k ∈ d1._idToBallMap.keys ↔
        k ≠ (⟨1⟩ : Id).toStdSizeT ∧ k ∈ exampleStopped._idToBallMap.keys) ∧
      (∀ other : Nat, other ≠ (⟨1⟩ : Id).toStdSizeT →
        d1._idToBallMap.find other = exampleStopped._idToBallMap.find other) ∧
      d1._idBallsToDelete = [] ∧
      d1._ballsToCreate = exampleStopped._ballsToCreate ∧
      d1._simulationIsActive = exampleStopped._simulationIsActive ∧
      d1._deltaT = exampleStopped._deltaT ∧
      d1.nextId = exampleStopped.nextId :=
  removeBall_stopped_spec exampleStopped ⟨1⟩
    { keysNodup := by decide
      keysBound := by decide
      pendingNodup := by decide
      pendingBound := by decide
      disjoint := by decide
      counterPos := by decide }
    rfl rfl (by decide)

/-! ## The representation invariant holds in every reachable state -/

namespace Impl

theorem WellFormed.of_same_ids {d d1 : Impl} (h : d.WellFormed)
    (hk : d1._idToBallMap.keys = d._idToBallMap.keys)
    (hp : d1._ballsToCreate = d._ballsToCreate) (hn : d1.nextId = d.nextId) :
    d1.WellFormed := by
  have hp1 : d1.pendingCreationIds = d.pendingCreationIds := by
    simp [pendingCreationIds, hp]
  exact
    { keysNodup := hk ▸ h.keysNodup
      keysBound := by rw [hk, hn]; exact h.keysBound
      pendingNodup := hp1 ▸ h.pendingNodup
      pendingBound := by rw [hp1, hn]; exact h.pendingBound
      disjoint := by rw [hk, hp1]; exact h.disjoint
      counterPos := hn ▸ h.counterPos }

theorem WellFormed.of_fewer_keys {d d1 : Impl} (h : d.WellFormed)
    (hn1 : d1._idToBallMap.keys.Nodup)
    (hk : ∀ k ∈ d1._idToBallMap.keys, k ∈ d._idToBallMap.keys)
    (hp : d1._ballsToCreate = d._ballsToCreate) (hn : d1.nextId = d.nextId) :
    d1.WellFormed := by
  have hp1 : d1.pendingCreationIds = d.pendingCreationIds := by
    simp [pendingCreationIds, hp]
  exact
    { keysNodup := hn1
      keysBound := fun k hk1 => hn ▸ h.keysBound k (hk k hk1)
      pendingNodup := hp1 ▸ h.pendingNodup
      pendingBound := by rw [hp1, hn]; exact h.pendingBound
      disjoint := fun k hk1 => hp1 ▸ h.disjoint k (hk k hk1)
      counterPos := hn ▸ h.counterPos }

theorem mem_keys_foldl_emplace (bs : List Ball) (r : Registry) (k : Nat) :
    k ∈ (bs.foldl (fun r ball => r.emplace ball.id.toStdSizeT ball) r).keys ↔
      k ∈ r.keys ∨ k ∈ bs.map (fun b => b.id.toStdSizeT) := by
  induction bs generalizing r with
  | nil => simp
  | cons b rest ih =>
    rw [List.foldl_cons, ih, Registry.mem_keys_emplace, List.map_cons, List.mem_cons]
    tauto

theorem nodup_keys_foldl_emplace (bs : List Ball) (r : Registry) (h : r.keys.Nodup) :
    (bs.foldl (fun r ball => r.emplace ball.id.toStdSizeT ball) r).keys.Nodup := by
  induction bs generalizing r with
  | nil => exact h
  | cons b rest ih =>
    rw [List.foldl_cons]
    exact ih _ (Registry.nodup_keys_emplace r _ b h)

theorem createBalls_wellFormed (d : Impl) (h : d.WellFormed) : d.createBalls.WellFormed :=
  { keysNodup := nodup_keys_foldl_emplace _ _ h.keysNodup
    keysBound := by
      intro k hk
      rcases (mem_keys_foldl_emplace _ _ k).mp hk with h1 | h1
      · exact h.keysBound k h1
      · exact h.pendingBound k h1
    pendingNodup := List.nodup_nil
    pendingBound := by intro k hk; simp [pendingCreationIds, createBalls] at hk
    disjoint := by intro k _ hk; simp [pendingCreationIds, createBalls] at hk
    counterPos := h.counterPos }

theorem eraseQueued_keys (ids : List Id) (r r1 : Registry) (hn : r.keys.Nodup)
    (h : eraseQueued r ids = .ok r1) :
    r1.keys.Nodup ∧ ∀ k ∈ r1.keys, k ∈ r.keys := by
  induction ids generalizing r with
  | nil =>
    simp only [eraseQueued] at h
    cases h
    exact ⟨hn, fun _ hk => hk⟩
  | cons i rest ih =>
    by_cases hi : i.toStdSizeT ∈ r.keys
    · simp only [eraseQueued, Registry.eraseFound, hi, if_true] at h
      obtain ⟨h1, h2⟩ := ih _ (Registry.nodup_keys_erase r _ hn) h
      exact ⟨h1, fun k hk => Registry.mem_keys_of_mem_keys_erase r _ k (h2 k hk)⟩
    · simp [eraseQueued, Registry.eraseFound, hi] at h

theorem deleteBalls_wellFormed (d d1 : Impl) (h : d.WellFormed)
    (hd : d.deleteBalls = .ok d1) : d1.WellFormed := by
  unfold deleteBalls at hd
  cases he : eraseQueued d._idToBallMap d._idBallsToDelete with
  | error e => rw [he] at hd; cases hd
  | ok r =>
    rw [he] at hd
    cases hd
    obtain ⟨h1, h2⟩ := eraseQueued_keys _ _ _ h.keysNodup he
    exact h.of_fewer_keys h1 h2 rfl rfl

theorem keys_applyForces (calculateForceForBall : Ball → Registry → Vector2f) (deltaT : ℚ)
    (todo done : Registry) :
    (applyForces calculateForceForBall deltaT done todo).keys = done.keys ++ todo.keys := by
  induction todo generalizing done with
  | nil => simp [applyForces, Registry.keys]
  | cons e rest ih =>
    rw [applyForces, ih]
    simp [Registry.keys]

theorem keys_makeSteps (deltaT : ℚ) (r : Registry) : (makeSteps deltaT r).keys = r.keys := by
  simp [makeSteps, Registry.keys]

theorem init_wellFormed (firstId : Nat) (p0 p1 : Vector2f) (h : 0 < firstId) :
    (init firstId p0 p1).WellFormed := by
  have hk : (init firstId p0 p1)._idToBallMap.keys = [firstId, firstId + 1] := by
    simp [init, Registry.emplace, Registry.keys]
  exact
    { keysNodup := by rw [hk]; simp
      keysBound := by
        rw [hk]
        intro k hk1
        simp only [List.mem_cons, List.mem_singleton, List.not_mem_nil, or_false] at hk1
        show 0 < k ∧ k < firstId + 2
        omega
      pendingNodup := List.nodup_nil
      pendingBound := by intro k hk1; simp [pendingCreationIds, init] at hk1
      disjoint := by intro k _ hk1; simp [pendingCreationIds, init] at hk1
      counterPos := Nat.succ_pos _ }

theorem simulate_wellFormed (calculateForceForBall : Ball → Registry → Vector2f)
    (d d1 : Impl) (h : d.WellFormed) (hs : simulate calculateForceForBall d = .ok d1) :
    d1.WellFormed := by
  unfold simulate at hs
  have h1 : ({ d with _idToBallMap :=
      (applyForces calculateForceForBall d._deltaT [] d._idToBallMap) } : Impl).WellFormed :=
    h.of_same_ids (keys_applyForces calculateForceForBall d._deltaT d._idToBallMap []) rfl rfl
  simp only at hs
  cases hd : deleteBalls { d with _idToBallMap :=
      (applyForces calculateForceForBall d._deltaT [] d._idToBallMap) } with
  | error e => rw [hd] at hs; cases hs
  | ok d2 =>
    rw [hd] at hs
    have h2 := deleteBalls_wellFormed _ _ h1 hd
    have h3 := createBalls_wellFormed _ h2
    have h4 : ({ d2.createBalls with _idToBallMap :=
        (makeSteps d2.createBalls._deltaT d2.createBalls._idToBallMap) } : Impl).WellFormed :=
      h3.of_same_ids (keys_makeSteps _ _) rfl rfl
    simp only at hs
    cases hd5 : deleteBalls { d2.createBalls with _idToBallMap :=
        (makeSteps d2.createBalls._deltaT d2.createBalls._idToBallMap) } with
    | error e => rw [hd5] at hs; cases hs
    | ok d5 =>
      rw [hd5] at hs
      cases hs
      exact createBalls_wellFormed _ (deleteBalls_wellFormed _ _ h4 hd5)

end Impl

theorem addBall_wellFormed (d : Impl) (position : Vector2f) (h : d.WellFormed) :
    (addBall d position).2.WellFormed := by
  have h1 : ({ d with
      _ballsToCreate := d._ballsToCreate ++ [⟨⟨d.nextId⟩, position, Vector2f.zero, false⟩]
      nextId := d.nextId + 1 } : Impl).WellFormed :=
    { keysNodup := h.keysNodup
      keysBound := fun k hk => ⟨(h.keysBound k hk).1, Nat.lt_succ_of_lt (h.keysBound k hk).2⟩
      pendingNodup := by
        simp only [Impl.pendingCreationIds, List.map_append, List.map_cons, List.map_nil]
        refine List.Nodup.append h.pendingNodup (List.nodup_singleton _) ?_
        intro a ha hb
        rw [List.mem_singleton] at hb
        exact Nat.lt_irrefl _ (hb ▸ (h.pendingBound a ha).2)
      pendingBound := by
        intro k hk
        simp only [Impl.pendingCreationIds, List.map_append, List.map_cons, List.map_nil,
          List.mem_append, List.mem_singleton] at hk
        rcases hk with hk | hk
        · exact ⟨(h.pendingBound k hk).1, Nat.lt_succ_of_lt (h.pendingBound k hk).2⟩
        · rw [hk]; exact ⟨h.counterPos, Nat.lt_succ_self _⟩
      disjoint := by
        intro k hk hp
        simp only [Impl.pendingCreationIds, List.map_append, List.map_cons, List.map_nil,
          List.mem_append, List.mem_singleton] at hp
        rcases hp with hp | hp
        · exact h.disjoint k hk hp
        · exact Nat.lt_irrefl _ (hp ▸ (h.keysBound k hk).2)
      counterPos := Nat.succ_pos _ }
  unfold addBall
  cases hs : d._simulationIsActive
  · simp only [hs, Bool.not_false, if_true]
    exact Impl.createBalls_wellFormed _ (h1.of_same_ids rfl rfl rfl)
  · simp only [hs, Bool.not_true, Bool.false_eq_true, if_false]
    exact h1.of_same_ids rfl rfl rfl

theorem removeBallLater_wellFormed (d d1 : Impl) (ballId : Id) (h : d.WellFormed)
    (hr : removeBallLater d ballId = .ok d1) : d1.WellFormed := by
  unfold removeBallLater at hr
  cases hz : ballId.isNull
  · have h1 : ({ d with _idBallsToDelete := d._idBallsToDelete ++ [ballId] } : Impl).WellFormed :=
      h.of_same_ids rfl rfl rfl
    cases hs : d._simulationIsActive
    · simp only [hz, hs, Bool.not_false, if_true, Bool.false_eq_true, if_false] at hr
      refine Impl.deleteBalls_wellFormed _ _ ?_ hr
      exact h1.of_same_ids rfl rfl rfl
    · simp only [hz, hs, Bool.not_true, Bool.false_eq_true, if_false] at hr
      cases hr
      exact h1.of_same_ids rfl rfl rfl
  · simp only [hz, if_true] at hr
    cases hr
    exact h

theorem removeBall_wellFormed (d d1 : Impl) (ballId : Id) (h : d.WellFormed)
    (hr : removeBall d ballId = .ok d1) : d1.WellFormed := by
  unfold removeBall at hr
  cases hz : ballId.isNull
  · simp only [hz, Bool.false_eq_true, if_false] at hr
    exact removeBallLater_wellFormed d d1 ballId h hr
  · simp only [hz, if_true] at hr
    cases hr
    exact h

theorem moveBall_wellFormed (d : Impl) (ballId : Id) (position : Vector2f)
    (h : d.WellFormed) : (moveBall d ballId position).2.WellFormed := by
  by_cases hk : ballId.toStdSizeT ∈ d._idToBallMap.keys
  · simp only [moveBall, Registry.modifyAt_of_mem _ _ _ hk]
    exact h.of_same_ids (by simp only [Registry.keys_update]) rfl rfl
  · simp only [moveBall, Registry.modifyAt_of_not_mem _ _ _ hk]
    exact h

theorem setBallFixed_wellFormed (d : Impl) (ballId : Id) (fixed : Bool)
    (h : d.WellFormed) : (setBallFixed d ballId fixed).2.WellFormed := by
  by_cases hk : ballId.toStdSizeT ∈ d._idToBallMap.keys
  · have hk1 : ballId.toStdSizeT ∈ (d._idToBallMap.update ballId.toStdSizeT
        (fun b => b.setSpeed Vector2f.zero)).keys := by
      rw [Registry.keys_update]; exact hk
    cases fixed
    · simp only [setBallFixed, Bool.not_false, if_true, Registry.modifyAt_of_mem _ _ _ hk,
        Registry.modifyAt_of_mem _ _ _ hk1]
      exact h.of_same_ids (by simp only [Registry.keys_update]) rfl rfl
    · simp only [setBallFixed, Bool.not_true, Bool.false_eq_true, if_false,
        Registry.modifyAt_of_mem _ _ _ hk]
      exact h.of_same_ids (by simp only [Registry.keys_update]) rfl rfl
  · cases fixed
    · simp only [setBallFixed, Bool.not_false, if_true, Registry.modifyAt_of_not_mem _ _ _ hk]
      exact h
    · simp only [setBallFixed, Bool.not_true, Bool.false_eq_true, if_false,
        Registry.modifyAt_of_not_mem _ _ _ hk]
      exact h

theorem stopSimulation_wellFormed (calculateForceForBall : Ball → Registry → Vector2f)
    (passInFlight : Bool) (d d1 : Impl) (h : d.WellFormed)
    (hs : Impl.stopSimulation calculateForceForBall passInFlight d = .ok d1) :
    d1.WellFormed := by
  have h1 : ({ d with _simulationIsActive := false } : Impl).WellFormed :=
    h.of_same_ids rfl rfl rfl
  unfold Impl.stopSimulation at hs
  cases passInFlight
  · simp only [Bool.false_eq_true, if_false] at hs
    cases hs
    exact h1
  · simp only [if_true] at hs
    exact Impl.simulate_wellFormed _ _ _ h1 hs

theorem startStopSimulation_wellFormed (calculateForceForBall : Ball → Registry → Vector2f)
    (passInFlight : Bool) (d d1 : Impl) (h : d.WellFormed)
    (hs : startStopSimulation calculateForceForBall passInFlight d = .ok d1) :
    d1.WellFormed := by
  unfold startStopSimulation at hs
  cases ha : d._simulationIsActive
  · simp only [ha, Bool.not_false, if_true] at hs
    cases hs
    exact h.of_same_ids rfl rfl rfl
  · simp only [ha, Bool.not_true, Bool.false_eq_true, if_false] at hs
    refine stopSimulation_wellFormed _ _ _ _ ?_ hs
    exact h.of_same_ids (by simp [Registry.keys]) rfl rfl

/-- Every reachable state is well formed. -/
theorem reachable_wellFormed (RADIUS_SQUARE : ℚ)
    (calculateForceForBall : Ball → Registry → Vector2f) (d : Impl)
    (h : Reachable RADIUS_SQUARE calculateForceForBall d) : d.WellFormed := by
  induction h with
  | init firstId p0 p1 h => exact Impl.init_wellFormed firstId p0 p1 h
  | addBall position _ ih => exact addBall_wellFormed _ position ih
  | removeBall ballId _ hr ih => exact removeBall_wellFormed _ _ ballId ih hr
  | removeBallAt position _ hr ih => exact removeBallLater_wellFormed _ _ _ ih hr
  | moveBall ballId position _ ih => exact moveBall_wellFormed _ ballId position ih
  | setBallFixed ballId fixed _ ih => exact setBallFixed_wellFormed _ ballId fixed ih
  | startStopSimulation passInFlight _ hs ih =>
    exact startStopSimulation_wellFormed _ passInFlight _ _ ih hs
  | setDeltaT deltaT _ ih => exact ih.of_same_ids rfl rfl rfl
  | simulate _ _ hs ih => exact Impl.simulate_wellFormed _ _ _ ih hs

/-! ## Which ids can be in two places at once -/

/-- C4, as stated, fails.  Start the freshly constructed model (ids 1 and 2)
and call `removeBall(1)`: the call returns, the state is reachable, and id 1
is a key of the registry and in the Pending-Deletion Queue.  Then call
`addBall` and `removeBall` of the id 3 it returned: id 3 is in the
Pending-Creation Queue and in the Pending-Deletion Queue. -/
theorem id_in_two_sets_counterexample :
    (∃ d1, removeBall exampleRunning ⟨1⟩ = .ok d1 ∧
      Reachable 1 exampleForce d1 ∧
      1 ∈ d1._idToBallMap.keys ∧ 1 ∈ d1.pendingDeletionIds) ∧
    (∃ d2, (addBall exampleRunning ⟨5, 5⟩).1 = ⟨3⟩ ∧
      removeBall (addBall exampleRunning ⟨5, 5⟩).2 ⟨3⟩ = .ok d2 ∧
      Reachable 1 exampleForce d2 ∧
      3 ∈ d2.pendingCreationIds ∧ 3 ∈ d2.pendingDeletionIds) := by
  have hr : Reachable 1 exampleForce exampleRunning :=
    Reachable.startStopSimulation false (Reachable.init 1 ⟨0, 0⟩ ⟨10, 0⟩ (by decide)) rfl
  refine ⟨⟨_, rfl, Reachable.removeBall ⟨1⟩ hr rfl, by decide, by decide⟩,
    ⟨_, rfl, rfl, Reachable.removeBall ⟨3⟩ (Reachable.addBall ⟨5, 5⟩ hr) rfl,
      by decide, by decide⟩⟩

/-- C4 (amended): at every observation point reachable from a freshly
constructed model by `startStopSimulation`, `setDeltaT`, `addBall`,
`removeBall`, `moveBall`, `setBallFixed` calls that return and by completed
passes of the simulation loop, no id is both a key of the registry and in the
Pending-Creation Queue, and neither of the two holds an id twice. -/
theorem reachable_registry_pending_creation_disjoint (RADIUS_SQUARE : ℚ)
    (calculateForceForBall : Ball → Registry → Vector2f) (d : Impl)
    (h : Reachable RADIUS_SQUARE calculateForceForBall d) :
    (∀ k : Nat, ¬ (k ∈ d._idToBallMap.keys ∧ k ∈ d.pendingCreationIds)) ∧
    d._idToBallMap.keys.Nodup ∧ d.pendingCreationIds.Nodup := by
  have hwf := reachable_wellFormed RADIUS_SQUARE calculateForceForBall d h
  exact ⟨fun k hk => hwf.disjoint k hk.1 hk.2, hwf.keysNodup, hwf.pendingNodup⟩

theorem reachable_registry_pending_creation_disjoint_witness :
    (∀ k : Nat, ¬ (k ∈ (addBall exampleRunning ⟨5, 5⟩).2._idToBallMap.keys ∧
      k ∈ (addBall exampleRunning ⟨5, 5⟩).2.pendingCreationIds)) ∧
    (addBall exampleRunning ⟨5, 5⟩).2._idToBallMap.keys.Nodup ∧
    (addBall exampleRunning ⟨5, 5⟩).2.pendingCreationIds.Nodup :=
  reachable_registry_pending_creation_disjoint 1 exampleForce _
    (Reachable.addBall ⟨5, 5⟩
      (Reachable.startStopSimulation false
        (Reachable.init 1 ⟨0, 0⟩ ⟨10, 0⟩ (by decide)) rfl))

/-! ## One pass of the simulation loop and the pending queues -/

namespace Impl

theorem eraseQueued_ok (ids : List Id) (r : Registry)
    (hn : (ids.map (fun i => i.toStdSizeT)).Nodup)
    (hm : ∀ k ∈ ids.map (fun i => i.toStdSizeT), k ∈ r.keys) :
    ∃ r1, eraseQueued r ids = .ok r1 := by
  induction ids generalizing r with
  | nil => exact ⟨r, rfl⟩
  | cons i rest ih =>
    rw [List.map_cons, List.nodup_cons] at hn
    have hi : i.toStdSizeT ∈ r.keys := hm _ (by simp)
    simp only [eraseQueued, Registry.eraseFound, hi, if_true]
    apply ih _ hn.2
    intro k hk
    rw [Registry.keys_erase]
    have hne : k ≠ i.toStdSizeT := fun h => hn.1 (h ▸ hk)
    exact (List.mem_erase_of_ne hne).mpr (hm k (List.mem_cons_of_mem _ hk))

/-- When every id of the Pending-Deletion Queue is a key of the registry and
none is queued twice, one pass of the loop body returns, every ball that was
in the Pending-Creation Queue is a key of the registry afterwards, and both
queues are empty. -/
theorem simulate_drains_queues (calculateForceForBall : Ball → Registry → Vector2f)
    (d : Impl) (hn : d.pendingDeletionIds.Nodup)
    (hm : ∀ k ∈ d.pendingDeletionIds, k ∈ d._idToBallMap.keys) :
    ∃ d1, simulate calculateForceForBall d = .ok d1 ∧
      (∀ k ∈ d.pendingCreationIds, k ∈ d1._idToBallMap.keys) ∧
      d1._ballsToCreate = [] ∧ d1._idBallsToDelete = [] := by
  have hm1 : ∀ k ∈ d._idBallsToDelete.map (fun i => i.toStdSizeT),
      k ∈ (applyForces calculateForceForBall d._deltaT [] d._idToBallMap).keys := by
    intro k hk
    rw [keys_applyForces]
    exact hm k hk
  obtain ⟨r1, hr1⟩ := eraseQueued_ok d._idBallsToDelete _ hn hm1
  have he : simulate calculateForceForBall d
      = .ok { d with
              _idToBallMap := makeSteps d._deltaT
                (d._ballsToCreate.foldl (fun r ball => r.emplace ball.id.toStdSizeT ball) r1)
              _idBallsToDelete := []
              _ballsToCreate := [] } := by
    simp only [simulate, deleteBalls, hr1, createBalls, eraseQueued, List.foldl_nil]
  refine ⟨_, he, ?_, rfl, rfl⟩
  intro k hk
  simp only [keys_makeSteps]
  exact (mem_keys_foldl_emplace _ _ k).mpr (Or.inr hk)

end Impl

/-- C10: the pass of the loop does not complete in every running state.
Start the freshly constructed model (ids 1 and 2), call `addBall((5, 5))`,
which queues a ball with id 3, and call `removeBall(1)` twice before the next
pass.  The state is running, with registry ids 1 and 2, Pending-Creation
Queue [3] and Pending-Deletion Queue [1, 1]; in the next pass `deleteBalls`
erases id 1 and then reaches `erase(find(1))` with `find(1)` equal to `end()`,
so the pass does not end and ball 3 does not get into the registry. -/
theorem simulate_double_removal_erases_end :
    ∃ d1 d2, removeBall (addBall exampleRunning ⟨5, 5⟩).2 ⟨1⟩ = .ok d1 ∧
      removeBall d1 ⟨1⟩ = .ok d2 ∧
      d2._simulationIsActive = true ∧
      d2._idToBallMap.keys = [1, 2] ∧
      d2.pendingCreationIds = [3] ∧
      d2.pendingDeletionIds = [1, 1] ∧
      Impl.simulate exampleForce d2 = .error .eraseEnd :=
  ⟨_, _, rfl, rfl, rfl, rfl, rfl, rfl, rfl⟩

end Model

namespace Registry

theorem keys_mapValues (r : Registry) (g : Ball → Ball) :
    keys (r.map (fun e => (e.1, g e.2))) = keys r := by
  simp [keys]

theorem find_mapValues (r : Registry) (g : Ball → Ball) (key : Nat) :
    find (r.map (fun e => (e.1, g e.2))) key = (find r key).map g := by
  induction r with
  | nil => rfl
  | cons e rest ih =>
    by_cases h : e.1 = key
    · simp [find, h]
    · simp [find, h, ih]

end Registry

namespace Model

/-! ## Starting and stopping -/

theorem startStopSimulation_stopped_eq (calculateForceForBall : Ball → Registry → Vector2f)
    (passInFlight : Bool) (d : Impl) (h : d._simulationIsActive = false) :
    startStopSimulation calculateForceForBall passInFlight d
      = .ok { d with _simulationIsActive := true } := by
  simp [startStopSimulation, h]

theorem startStopSimulation_running_eq (calculateForceForBall : Ball → Registry → Vector2f)
    (passInFlight : Bool) (d : Impl) (h : d._simulationIsActive = true) :
    startStopSimulation calculateForceForBall passInFlight d
      = Impl.stopSimulation calculateForceForBall passInFlight
          { d with
            _simulationIsActive := false
            _idToBallMap := d._idToBallMap.map (fun e => (e.1, e.2.setSpeed Vector2f.zero)) } := by
  simp [startStopSimulation, h]

/-- When the background thread stands at the test of the loop, the stop
returns with the running flag false and every ball at velocity zero, the
positions, pinned flags, ids, queues and time step being what they were. -/
theorem startStopSimulation_stops_at_loop_test
    (calculateForceForBall : Ball → Registry → Vector2f) (d : Impl)
    (h : d._simulationIsActive = true) :
    ∃ d1, startStopSimulation calculateForceForBall false d = .ok d1 ∧
      d1._simulationIsActive = false ∧
      (∀ e ∈ d1._idToBallMap, e.2.speed = Vector2f.zero) ∧
      (∀ key : Nat, d1._idToBallMap.find key
        = (d._idToBallMap.find key).map (fun b => { b with speed := Vector2f.zero })) ∧
      d1._idToBallMap.keys = d._idToBallMap.keys ∧
      d1._idBallsToDelete = d._idBallsToDelete ∧
      d1._ballsToCreate = d._ballsToCreate ∧
      d1._deltaT = d._deltaT ∧
      d1.nextId = d.nextId := by
  have he : startStopSimulation calculateForceForBall false d
      = .ok { d with
              _simulationIsActive := false
              _idToBallMap :=
                d._idToBallMap.map (fun e => (e.1, e.2.setSpeed Vector2f.zero)) } := by
    rw [startStopSimulation_running_eq _ _ d h]
    rfl
  refine ⟨_, he, rfl, ?_, ?_, ?_, rfl, rfl, rfl, rfl⟩
  · intro e he
    obtain ⟨e0, _, rfl⟩ := List.mem_map.mp he
    rfl
  · intro key
    exact Registry.find_mapValues d._idToBallMap (fun b => b.setSpeed Vector2f.zero) key
  · exact Registry.keys_mapValues d._idToBallMap (fun b => b.setSpeed Vector2f.zero)

/-- C11: the stop does not leave every ball at rest.  In the running model
`exampleTestBalls` (ball 1 at (0, 0), ball 2 at (3, 4), time step 0.001)
`startStopSimulation()` is called while the background thread is past the
test of the loop.  The velocities are set to zero before `join`; the pass in
flight then applies the force (0.096, 0.128) to ball 1 and moves it.  When
the call returns the running flag is false, ball 1 has velocity
(0.000096, 0.000128), not zero, and is no longer at (0, 0). -/
theorem startStopSimulation_pass_in_flight_moves :
    exampleTestBalls._simulationIsActive = true ∧
    exampleTestBalls._idToBallMap.find 1 = some ⟨⟨1⟩, ⟨0, 0⟩, Vector2f.zero, false⟩ ∧
    ∃ d1 b, startStopSimulation exampleTestForce true exampleTestBalls = .ok d1 ∧
      d1._simulationIsActive = false ∧
      d1._idToBallMap.find 1 = some b ∧
      b.speed = ⟨12 / 125000, 16 / 125000⟩ ∧
      b.speed ≠ Vector2f.zero ∧
      b.position ≠ ⟨0, 0⟩ := by
  refine ⟨rfl, rfl, _,
    ⟨⟨1⟩,
      Vector2f.add ⟨0, 0⟩
        (Vector2f.scale
          (Vector2f.add Vector2f.zero (Vector2f.scale ⟨12 / 125, 16 / 125⟩ (1 / 1000)))
          (1 / 1000)),
      Vector2f.add Vector2f.zero (Vector2f.scale ⟨12 / 125, 16 / 125⟩ (1 / 1000)),
      false⟩,
    rfl, rfl, rfl, ?_, ?_, ?_⟩
  · norm_num [Vector2f.add, Vector2f.scale, Vector2f.zero]
  · norm_num [Vector2f.add, Vector2f.scale, Vector2f.zero]
  · norm_num [Vector2f.add, Vector2f.scale, Vector2f.zero]

/-- C12, as stated, fails: the model has no stop operation of its own, only
the toggle `startStopSimulation()`.  Called on the freshly constructed model,
which is stopped and was never started, it returns with the running flag
true. -/
theorem startStopSimulation_on_stopped_counterexample :
    exampleStopped._simulationIsActive = false ∧
    ∃ d1, startStopSimulation exampleForce false exampleStopped = .ok d1 ∧
      d1._simulationIsActive = true :=
  ⟨rfl, _, rfl, rfl⟩

/-- C12 (amended): on every stopped model state `startStopSimulation()`, the
one public operation that starts or stops, returns and starts the simulation:
the running flag is true afterwards, and the registry, both pending queues,
the time step and the id counter are unchanged. -/
theorem startStopSimulation_on_stopped_starts
    (calculateForceForBall : Ball → Registry → Vector2f) (passInFlight : Bool) (d : Impl)
    (h : d._simulationIsActive = false) :
    ∃ d1, startStopSimulation calculateForceForBall passInFlight d = .ok d1 ∧
      d1._simulationIsActive = true ∧
      d1._idToBallMap = d._idToBallMap ∧
      d1._idBallsToDelete = d._idBallsToDelete ∧
      d1._ballsToCreate = d._ballsToCreate ∧
      d1._deltaT = d._deltaT ∧
      d1.nextId = d.nextId :=
  ⟨_, startStopSimulation_stopped_eq calculateForceForBall passInFlight d h,
    rfl, rfl, rfl, rfl, rfl, rfl⟩

theorem startStopSimulation_on_stopped_starts_witness :
    ∃ d1, startStopSimulation exampleForce false exampleStopped = .ok d1 ∧
      d1._simulationIsActive = true ∧
      d1._idToBallMap = exampleStopped._idToBallMap ∧
      d1._idBallsToDelete = exampleStopped._idBallsToDelete ∧
      d1._ballsToCreate = exampleStopped._ballsToCreate ∧
      d1._deltaT = exampleStopped._deltaT ∧
      d1.nextId = exampleStopped.nextId :=
  startStopSimulation_on_stopped_starts exampleForce false exampleStopped rfl

/-! ## The freshly constructed model -/

/-- C15: a freshly constructed model has exactly two balls in the registry,
`ballsNumber()` is 2, their ids are the two distinct ids that the constructor
of `Ball` handed out, both balls are not pinned and at rest, both pending
queues are empty, the simulation is stopped and the time step is 0.001. -/
theorem init_spec (firstId : Nat) (p0 p1 : Vector2f) :
    ballsNumber (Impl.init firstId p0 p1) = 2 ∧
    ballIds (Impl.init firstId p0 p1) = [⟨firstId⟩, ⟨firstId + 1⟩] ∧
    (ballIds (Impl.init firstId p0 p1)).Nodup ∧
    (∀ e ∈ (Impl.init firstId p0 p1)._idToBallMap,
      e.2.isFixed = false ∧ e.2.speed = Vector2f.zero ∧ e.2.id.toStdSizeT = e.1) ∧
    (Impl.init firstId p0 p1)._idBallsToDelete = [] ∧
    (Impl.init firstId p0 p1)._ballsToCreate = [] ∧
    (Impl.init firstId p0 p1)._simulationIsActive = false ∧
    deltaT (Impl.init firstId p0 p1) = 1 / 1000 := by
  have hm : (Impl.init firstId p0 p1)._idToBallMap
      = [(firstId, Ball.create ⟨firstId⟩ p0), (firstId + 1, Ball.create ⟨firstId + 1⟩ p1)] := by
    simp [Impl.init, Registry.emplace, Registry.keys]
  refine ⟨?_, ?_, ?_, ?_, rfl, rfl, rfl, rfl⟩
  · simp [ballsNumber, hm]
  · simp [ballIds, hm]
  · simp [ballIds, hm]
  · intro e he
    rw [hm] at he
    simp only [List.mem_cons, List.mem_singleton, List.not_mem_nil, or_false] at he
    rcases he with rfl | rfl <;> exact ⟨rfl, rfl, rfl⟩

/-! ## The queues of a stopped model -/

theorem deleteBalls_queues (d d1 : Impl) (h : d.deleteBalls = .ok d1) :
    d1._idBallsToDelete = [] ∧ d1._ballsToCreate = d._ballsToCreate ∧
    d1._simulationIsActive = d._simulationIsActive := by
  unfold Impl.deleteBalls at h
  cases he : Impl.eraseQueued d._idToBallMap d._idBallsToDelete with
  | error e => rw [he] at h; cases h
  | ok r =>
    rw [he] at h
    cases h
    exact ⟨rfl, rfl, rfl⟩

theorem removeBallLater_stopped_queues (d d1 : Impl) (ballId : Id)
    (hs : d._simulationIsActive = false) (hc : d._ballsToCreate = [])
    (hd : d._idBallsToDelete = []) (h : removeBallLater d ballId = .ok d1) :
    d1._ballsToCreate = [] ∧ d1._idBallsToDelete = [] ∧ d1._simulationIsActive = false := by
  unfold removeBallLater at h
  cases hz : ballId.isNull
  · simp only [hz, hs, Bool.not_false, if_true, Bool.false_eq_true, if_false] at h
    obtain ⟨h1, h2, h3⟩ := deleteBalls_queues _ _ h
    exact ⟨h2.trans hc, h1, h3⟩
  · simp only [hz, if_true] at h
    cases h
    exact ⟨hc, hd, hs⟩

/-- C17: in a stopped model whose two pending queues are empty, after
`addBall`, after a `removeBall(id)` or `removeBall(position)` that returns,
and after `moveBall` or `setBallFixed` (whether they return or throw), the
Pending-Creation Queue and the Pending-Deletion Queue are both empty and the
model is still stopped. -/
theorem stopped_queues_stay_empty (RADIUS_SQUARE : ℚ) (d : Impl)
    (hs : d._simulationIsActive = false) (hc : d._ballsToCreate = [])
    (hd : d._idBallsToDelete = []) :
    (∀ position : Vector2f,
      (addBall d position).2._ballsToCreate = [] ∧
      (addBall d position).2._idBallsToDelete = [] ∧
      (addBall d position).2._simulationIsActive = false) ∧
    (∀ (ballId : Id) (d1 : Impl), removeBall d ballId = .ok d1 →
      d1._ballsToCreate = [] ∧ d1._idBallsToDelete = [] ∧ d1._simulationIsActive = false) ∧
    (∀ (position : Vector2f) (d1 : Impl), removeBallAt RADIUS_SQUARE d position = .ok d1 →
      d1._ballsToCreate = [] ∧ d1._idBallsToDelete = [] ∧ d1._simulationIsActive = false) ∧
    (∀ (ballId : Id) (position : Vector2f),
      (moveBall d ballId position).2._ballsToCreate = [] ∧
      (moveBall d ballId position).2._idBallsToDelete = [] ∧
      (moveBall d ballId position).2._simulationIsActive = false) ∧
    (∀ (ballId : Id) (fixed : Bool),
      (setBallFixed d ballId fixed).2._ballsToCreate = [] ∧
      (setBallFixed d ballId fixed).2._idBallsToDelete = [] ∧
      (setBallFixed d ballId fixed).2._simulationIsActive = false) := by
  refine ⟨?_, ?_, ?_, ?_, ?_⟩
  · intro position
    simp [addBall, hs, hd, Impl.createBalls]
  · intro ballId d1 h
    unfold removeBall at h
    cases hz : ballId.isNull
    · simp only [hz, Bool.false_eq_true, if_false] at h
      exact removeBallLater_stopped_queues d d1 ballId hs hc hd h
    · simp only [hz, if_true] at h
      cases h
      exact ⟨hc, hd, hs⟩
  · intro position d1 h
    exact removeBallLater_stopped_queues d d1 _ hs hc hd h
  · intro ballId position
    by_cases hk : ballId.toStdSizeT ∈ d._idToBallMap.keys
    · simp only [moveBall, Registry.modifyAt_of_mem _ _ _ hk]
      exact ⟨hc, hd, hs⟩
    · simp only [moveBall, Registry.modifyAt_of_not_mem _ _ _ hk]
      exact ⟨hc, hd, hs⟩
  · intro ballId fixed
    by_cases hk : ballId.toStdSizeT ∈ d._idToBallMap.keys
    · have hk1 : ballId.toStdSizeT ∈ (d._idToBallMap.update ballId.toStdSizeT
          (fun b => b.setSpeed Vector2f.zero)).keys := by
        rw [Registry.keys_update]; exact hk
      cases fixed
      · simp only [setBallFixed, Bool.not_false, if_true, Registry.modifyAt_of_mem _ _ _ hk,
          Registry.modifyAt_of_mem _ _ _ hk1]
        exact ⟨hc, hd, hs⟩
      · simp only [setBallFixed, Bool.not_true, Bool.false_eq_true, if_false,
          Registry.modifyAt_of_mem _ _ _ hk]
        exact ⟨hc, hd, hs⟩
    · cases fixed
      · simp only [setBallFixed, Bool.not_false, if_true,
          Registry.modifyAt_of_not_mem _ _ _ hk]
        exact ⟨hc, hd, hs⟩
      · simp only [setBallFixed, Bool.not_true, Bool.false_eq_true, if_false,
          Registry.modifyAt_of_not_mem _ _ _ hk]
        exact ⟨hc, hd, hs⟩

theorem stopped_queues_stay_empty_witness :
    (∀ position : Vector2f,
      (addBall exampleStopped position).2._ballsToCreate = [] ∧
      (addBall exampleStopped position).2._idBallsToDelete = [] ∧
      (addBall exampleStopped position).2._simulationIsActive = false) ∧
    (∀ (ballId : Id) (d1 : Impl), removeBall exampleStopped ballId = .ok d1 →
      d1._ballsToCreate = [] ∧ d1._idBallsToDelete = [] ∧ d1._simulationIsActive = false) ∧
    (∀ (position : Vector2f) (d1 : Impl), removeBallAt 1 exampleStopped position = .ok d1 →
      d1._ballsToCreate = [] ∧ d1._idBallsToDelete = [] ∧ d1._simulationIsActive = false) ∧
    (∀ (ballId : Id) (position : Vector2f),
      (moveBall exampleStopped ballId position).2._ballsToCreate = [] ∧
      (moveBall exampleStopped ballId position).2._idBallsToDelete = [] ∧
      (moveBall exampleStopped ballId position).2._simulationIsActive = false) ∧
    (∀ (ballId : Id) (fixed : Bool),
      (setBallFixed exampleStopped ballId fixed).2._ballsToCreate = [] ∧
      (setBallFixed exampleStopped ballId fixed).2._idBallsToDelete = [] ∧
      (setBallFixed exampleStopped ballId fixed).2._simulationIsActive = false) :=
  stopped_queues_stay_empty 1 exampleStopped rfl rfl rfl

/-! ## A ball that is queued for creation and for deletion -/

namespace Impl

theorem eraseQueued_error_of_absent (ids : List Id) (r : Registry) (i : Id)
    (hi : i ∈ ids) (hk : i.toStdSizeT ∉ r.keys) :
    eraseQueued r ids = .error .eraseEnd := by
  induction ids generalizing r with
  | nil => simp at hi
  | cons j rest ih =>
    by_cases hj : j.toStdSizeT ∈ r.keys
    · have hne : i ≠ j := fun h => hk (h ▸ hj)
      have hi1 : i ∈ rest := by
        rcases List.mem_cons.mp hi with h | h
        · exact absurd h hne
        · exact h
      have hk1 : i.toStdSizeT ∉ (r.erase j.toStdSizeT).keys :=
        fun h => hk (Registry.mem_keys_of_mem_keys_erase r _ _ h)
      simp [eraseQueued, Registry.eraseFound, hj, ih _ hi1 hk1]
    · simp [eraseQueued, Registry.eraseFound, hj]

end Impl

/-- The example state is what `addBall((5, 5))` followed by `removeBall` of
the returned id makes of the running fresh model. -/
theorem exampleAddedThenRemoved_reached :
    (addBall exampleRunning ⟨5, 5⟩).1 = ⟨3⟩ ∧
    removeBall (addBall exampleRunning ⟨5, 5⟩).2 ⟨3⟩ = .ok exampleAddedThenRemoved :=
  ⟨rfl, rfl⟩

/-- C16: the removal request is not ignored.  In every well-formed model
state in which a ball is in the Pending-Creation Queue and its id is in the
Pending-Deletion Queue (`addBall` followed by `removeBall` of the returned id
before the next drain), the next pass of the simulation loop runs
`deleteBalls` before `createBalls`, so `find(id)` is `end()` and the pass
reaches `erase(end())`: it does not end with the ball in the registry and
both queues empty. -/
theorem simulate_pending_and_deleted_erases_end
    (calculateForceForBall : Ball → Registry → Vector2f) (d : Impl) (b : Ball)
    (hwf : d.WellFormed) (hc : b ∈ d._ballsToCreate) (hd : b.id ∈ d._idBallsToDelete) :
    Impl.simulate calculateForceForBall d = .error .eraseEnd := by
  have hk : b.id.toStdSizeT ∉ d._idToBallMap.keys := fun h =>
    hwf.disjoint _ h (List.mem_map.mpr ⟨b, hc, rfl⟩)
  have hk1 : b.id.toStdSizeT ∉
      (Impl.applyForces calculateForceForBall d._deltaT [] d._idToBallMap).keys := by
    rw [Impl.keys_applyForces]; exact hk
  have he := Impl.eraseQueued_error_of_absent d._idBallsToDelete _ b.id hd hk1
  simp only [Impl.simulate, Impl.deleteBalls, he]

theorem simulate_pending_and_deleted_erases_end_witness :
    exampleAddedThenRemoved._simulationIsActive = true ∧
    exampleAddedThenRemoved._idToBallMap.keys = [1, 2] ∧
    exampleAddedThenRemoved.pendingCreationIds = [3] ∧
    exampleAddedThenRemoved.pendingDeletionIds = [3] ∧
    Impl.simulate exampleForce exampleAddedThenRemoved = .error .eraseEnd :=
  ⟨rfl, rfl, rfl, rfl,
    simulate_pending_and_deleted_erases_end exampleForce exampleAddedThenRemoved
      (Ball.create ⟨3⟩ ⟨5, 5⟩)
      { keysNodup := by decide
        keysBound := by decide
        pendingNodup := by decide
        pendingBound := by decide
        disjoint := by decide
        counterPos := by decide }
      (by simp [exampleAddedThenRemoved])
      (by simp [exampleAddedThenRemoved, Ball.create])⟩

end Model

end domain
